import Mathlib

/-!
# Task management API (`src/main.go`)

A shallow embedding of the five gin handlers of `main.go` and of the single
SQLite table `tasks` they work on.

* The global handle `db` becomes an explicit store value `DB` that every
  handler takes and returns.
* The SQL statements are modelled by their effect on the table: `INSERT` with
  an `AUTOINCREMENT` primary key, `SELECT ... WHERE ID = ?`, `UPDATE ... WHERE
  ID=?`, `DELETE ... WHERE ID=?` and the full scan `SELECT ... FROM tasks`.
* `c.Param("id")` is the text of the path segment; SQLite applies the INTEGER
  affinity of the `ID` column to the bound text, so the comparison `ID = ?` is a
  comparison with the integer that the segment denotes. The model takes that
  integer as `taskID`; a segment that denotes no integer matches no row and is
  not modelled.
* The text columns hold Go strings, written by the `INSERT` and `UPDATE` of this
  program and read back verbatim; a `NULL` in a column is not modelled.
* Errors of the storage layer (`Prepare`, `Exec`, `Query`, `Scan`) are inputs
  from the environment, the record `Faults`. A statement that fails has no
  effect on the store.
* Requests are served one after the other.
* `c.BindJSON` is a library call; the request body is taken at the granularity
  of the `Task` fields that the JSON object carries (`Payload`), or `malformed`.
* `c.JSON(code, v)` becomes a `Response` holding the status code and the JSON
  value that `encoding/json` produces for `v`.
-/

namespace TaskAPI

/-! ## Data model -/

/-- The Go struct `Task` (`main.go` lines 15-21); `int64` is an `Int`. -/
structure Task where
  ID : Int
  Title : String
  Description : String
  DueDate : String
  Status : String
deriving DecidableEq, Repr

/-- JSON values, as written by `c.JSON`. -/
inductive JSON where
  | null : JSON
  | num : Int → JSON
  | str : String → JSON
  | arr : List JSON → JSON
  | obj : List (String × JSON) → JSON

/-- What a handler hands to `c.JSON`: a status code and the encoded value. -/
structure Response where
  status : Nat
  body : JSON

/-- The constants `http.StatusOK` and friends. -/
def StatusOK : Nat := 200
def StatusBadRequest : Nat := 400
def StatusNotFound : Nat := 404
def StatusInternalServerError : Nat := 500

/-- The encoding of a `Task` by `encoding/json`: an object with the five keys of
the struct tags, in field order. -/
def Task.toJSON (t : Task) : JSON :=
  JSON.obj [("id", JSON.num t.ID), ("title", JSON.str t.Title),
    ("description", JSON.str t.Description), ("due_date", JSON.str t.DueDate),
    ("status", JSON.str t.Status)]

/-- The encoding of a `gin.H` literal with the one entry `key: msg`. -/
def H (key msg : String) : JSON := JSON.obj [(key, JSON.str msg)]

/-- A Go slice `[]Task`: `none` is the nil slice, `some l` a non-nil slice. -/
abbrev Slice := Option (List Task)

/-- The Go builtin `append(s, t)`: appending to the nil slice allocates. -/
def Slice.append (s : Slice) (t : Task) : Slice :=
  match s with
  | none => some [t]
  | some l => some (l ++ [t])

/-- The encoding of a `[]Task` by `encoding/json`: a nil slice is written as
`null`, any other slice as an array. -/
def Slice.toJSON (s : Slice) : JSON :=
  match s with
  | none => JSON.null
  | some l => JSON.arr (l.map Task.toJSON)

/-- The value of a key of a JSON object, if the value is an object with it. -/
def JSON.field (k : String) : JSON → Option JSON
  | JSON.obj kv => (kv.find? (fun p => p.1 == k)).map Prod.snd
  | _ => none

/-- The integer under the key `id` of a JSON object. -/
def JSON.id? (j : JSON) : Option Int :=
  match j.field "id" with
  | some (JSON.num n) => some n
  | _ => none

/-! ## Request bodies -/

/-- A JSON object sent as a request body, by the `Task` fields it carries.
A field that is absent (or `null`) is `none`; keys that are no field of `Task`
are ignored by the decoder and are not recorded. -/
structure Payload where
  id : Option Int
  title : Option String
  description : Option String
  due_date : Option String
  status : Option String
deriving DecidableEq, Repr

/-- A request body: `malformed` is a body that the decoder rejects (text that is
not JSON, a JSON value that is no object, or an object with a field of the wrong
JSON type); `object p` is a JSON object with some of the fields of `Task` (the
body `null` decodes like the object without fields). -/
inductive Body where
  | malformed : Body
  | object : Payload → Body
deriving DecidableEq, Repr

/-- Bounds of Go's `int64`. -/
def minInt64 : Int := -9223372036854775808
def maxInt64 : Int := 9223372036854775807

/-- The call `c.BindJSON(&task)` on `var task Task`: the decoder overwrites the
fields that the body carries and leaves the others at their zero value; it fails
on a malformed body and on an `id` that does not fit `int64`. -/
def bindJSON : Body → Option Task
  | Body.malformed => none
  | Body.object p =>
    if minInt64 ≤ p.id.getD 0 ∧ p.id.getD 0 ≤ maxInt64 then
      some { ID := p.id.getD 0, Title := p.title.getD "",
             Description := p.description.getD "", DueDate := p.due_date.getD "",
             Status := p.status.getD "" }
    else none

/-! ## The store -/

/-- The SQLite database `tasks.db`: the rows of the table `tasks` in rowid
order, and the entry of `sqlite_sequence` for the table (the largest rowid
that `AUTOINCREMENT` has handed out). -/
structure DB where
  rows : List Task
  seq : Int
deriving DecidableEq, Repr

/-- The store right after `setupDatabase` on a fresh file. -/
def DB.empty : DB := { rows := [], seq := 0 }

/-- Errors of the storage layer, given by the environment. -/
structure Faults where
  /-- The call `db.Prepare` returns an error. -/
  prepare : Bool
  /-- The call `Exec` returns an error; the statement has no effect. -/
  exec : Bool
  /-- The call `db.Query`, or `db.QueryRow(...).Scan`, returns an error that is
  not `sql.ErrNoRows`. -/
  query : Bool
  /-- In `listTasks`, `rows.Scan` fails on the row with this index. -/
  scan : Option Nat
deriving DecidableEq, Repr

/-- No storage error. -/
def Faults.none : Faults := { prepare := false, exec := false, query := false, scan := Option.none }

/-- The largest rowid among the rows (0 when there is none above 0). -/
def maxRowid (rows : List Task) : Int :=
  rows.foldr (fun t m => max t.ID m) 0

/-- The rowid that `AUTOINCREMENT` picks for the next row: one more than the
largest rowid that the table holds or has ever held. -/
def DB.nextRowid (db : DB) : Int := max db.seq (maxRowid db.rows) + 1

/-- The statement `INSERT INTO tasks (Title, Description, DueDate, Status) VALUES
(?, ?, ?, ?)`: the new store and `LastInsertId`, or an error (`SQLITE_FULL`) when
the rowids are used up. -/
def DB.insert (db : DB) (title description dueDate status : String) : Option (DB × Int) :=
  if db.nextRowid ≤ maxInt64 then
    some ({ rows := db.rows ++ [{ ID := db.nextRowid, Title := title,
                                  Description := description, DueDate := dueDate,
                                  Status := status }],
            seq := db.nextRowid }, db.nextRowid)
  else none

/-- The statement `SELECT ID, Title, Description, DueDate, Status FROM tasks WHERE
ID = ?` read by `QueryRow(...).Scan`: the first matching row. -/
def DB.selectByID (db : DB) (taskID : Int) : Option Task :=
  db.rows.find? (fun t => t.ID == taskID)

/-- The statement `UPDATE tasks SET Title=?, Description=?, DueDate=?, Status=?
WHERE ID=?`. -/
def DB.update (db : DB) (title description dueDate status : String) (taskID : Int) : DB :=
  { db with rows := db.rows.map (fun t =>
      if t.ID == taskID then
        { t with Title := title, Description := description, DueDate := dueDate,
                 Status := status }
      else t) }

/-- The statement `DELETE FROM tasks WHERE ID=?`. -/
def DB.delete (db : DB) (taskID : Int) : DB :=
  { db with rows := db.rows.filter (fun t => !(t.ID == taskID)) }

/-! ## The handlers -/

/-- The function `createTask` (`main.go` lines 46-68). -/
def createTask (f : Faults) (body : Body) (db : DB) : Response × DB :=
  match bindJSON body with
  | none => (⟨StatusBadRequest, H "error" "Invalid request payload"⟩, db)
  | some task =>
    if f.prepare then (⟨StatusInternalServerError, H "error" "Database error"⟩, db)
    else if f.exec then (⟨StatusInternalServerError, H "error" "Database error"⟩, db)
    else
      match db.insert task.Title task.Description task.DueDate task.Status with
      | none => (⟨StatusInternalServerError, H "error" "Database error"⟩, db)
      | some (db1, lastInsertId) =>
        (⟨StatusOK, Task.toJSON { task with ID := lastInsertId }⟩, db1)

/-- The function `getTask` (`main.go` lines 70-88). -/
def getTask (f : Faults) (taskID : Int) (db : DB) : Response × DB :=
  if f.query then (⟨StatusInternalServerError, H "error" "Database error"⟩, db)
  else
    match db.selectByID taskID with
    | none => (⟨StatusNotFound, H "error" "Task not found"⟩, db)
    | some task => (⟨StatusOK, Task.toJSON task⟩, db)

/-- The function `updateTask` (`main.go` lines 90-112). -/
def updateTask (f : Faults) (taskID : Int) (body : Body) (db : DB) : Response × DB :=
  match bindJSON body with
  | none => (⟨StatusBadRequest, H "error" "Invalid request payload"⟩, db)
  | some task =>
    if f.prepare then (⟨StatusInternalServerError, H "error" "Database error"⟩, db)
    else if f.exec then (⟨StatusInternalServerError, H "error" "Database error"⟩, db)
    else
      (⟨StatusOK, Task.toJSON task⟩,
        db.update task.Title task.Description task.DueDate task.Status taskID)

/-- The function `deleteTask` (`main.go` lines 114-124). -/
def deleteTask (f : Faults) (taskID : Int) (db : DB) : Response × DB :=
  if f.exec then (⟨StatusInternalServerError, H "error" "Database error"⟩, db)
  else (⟨StatusOK, H "message" "Task deleted successfully"⟩, db.delete taskID)

/-- The loop `for rows.Next()` of `listTasks` (lines 135-143) over the rows that
are left, `k` being the index of the next row: `none` when a `Scan` fails. -/
def scanRows (f : Faults) : Nat → List Task → Slice → Option Slice
  | _, [], tasks => some tasks
  | k, task :: rest, tasks =>
    if f.scan = some k then none
    else scanRows f (k + 1) rest (tasks.append task)

/-- The function `listTasks` (`main.go` lines 126-146); `tasks` starts as the
nil slice of `var tasks []Task`. -/
def listTasks (f : Faults) (db : DB) : Response × DB :=
  if f.query then (⟨StatusInternalServerError, H "error" "Database error"⟩, db)
  else
    match scanRows f 0 db.rows Option.none with
    | none => (⟨StatusInternalServerError, H "error" "Database error"⟩, db)
    | some tasks => (⟨StatusOK, Slice.toJSON tasks⟩, db)

/-! ## Request sequences -/

/-- A request to one of the five routes registered in `main` (lines 159-163),
with the storage errors that it meets. -/
inductive Req where
  | create : Faults → Body → Req
  | get : Faults → Int → Req
  | update : Faults → Int → Body → Req
  | delete : Faults → Int → Req
  | list : Faults → Req

/-- The router: the handler that the request is dispatched to. -/
def handle (r : Req) (db : DB) : Response × DB :=
  match r with
  | Req.create f b => createTask f b db
  | Req.get f i => getTask f i db
  | Req.update f i b => updateTask f i b db
  | Req.delete f i => deleteTask f i db
  | Req.list f => listTasks f db

/-- Serving a sequence of requests one after the other: the requests with their
responses, and the store at the end. -/
def run (db : DB) : List Req → List (Req × Response) × DB
  | [] => ([], db)
  | r :: rs =>
    ((r, (handle r db).1) :: (run (handle r db).2 rs).1, (run (handle r db).2 rs).2)

/-- One step of the bookkeeping of the ids of the tasks that were created and
not deleted since, read off the requests and their responses only. -/
def liveStep (l : List Int) (e : Req × Response) : List Int :=
  match e.1 with
  | Req.create _ _ =>
    if e.2.status = StatusOK then
      match e.2.body.id? with
      | some n => l ++ [n]
      | none => l
    else l
  | Req.delete _ i => if e.2.status = StatusOK then l.filter (fun n => !(n == i)) else l
  | _ => l

/-- The ids of the tasks created and not deleted since, one entry per created
task, in order of creation. -/
def liveFrom (l : List Int) (trace : List (Req × Response)) : List Int :=
  trace.foldl liveStep l

/-- The ids that the create requests of a trace were answered with. -/
def createdIds : List (Req × Response) → List Int
  | [] => []
  | (Req.create _ _, resp) :: rest =>
    if resp.status = StatusOK then
      match resp.body.id? with
      | some n => n :: createdIds rest
      | none => createdIds rest
    else createdIds rest
  | _ :: rest => createdIds rest

/-- The bookkeeping invariant of a store: the ids of its rows are the list `l`, in
order, none of them above the rowid counter, and no id occurs twice. -/
def Tracks (db : DB) (l : List Int) : Prop :=
  db.rows.map Task.ID = l ∧ (∀ x ∈ l, x ≤ db.seq) ∧ l.Nodup

/-! ## Auxiliary facts about the store -/

theorem bindJSON_object (p : Payload) (t : Task) (h : bindJSON (Body.object p) = some t) :
    t = { ID := p.id.getD 0, Title := p.title.getD "", Description := p.description.getD "",
          DueDate := p.due_date.getD "", Status := p.status.getD "" } := by
  simp only [bindJSON] at h
  split at h
  · exact (Option.some.inj h).symm
  · cases h

theorem le_maxRowid (rows : List Task) : ∀ t ∈ rows, t.ID ≤ maxRowid rows := by
  induction rows with
  | nil => intro t ht; cases ht
  | cons r rest ih =>
    intro t ht
    rcases List.mem_cons.mp ht with h | h
    · subst h; exact le_max_left _ _
    · exact le_trans (ih t h) (le_max_right _ _)

theorem lt_nextRowid (db : DB) : ∀ t ∈ db.rows, t.ID < db.nextRowid := by
  intro t ht
  have h1 := le_maxRowid db.rows t ht
  have h2 : maxRowid db.rows ≤ max db.seq (maxRowid db.rows) := le_max_right _ _
  unfold DB.nextRowid
  omega

theorem seq_lt_nextRowid (db : DB) : db.seq < db.nextRowid := by
  have h2 : db.seq ≤ max db.seq (maxRowid db.rows) := le_max_left _ _
  unfold DB.nextRowid
  omega

theorem selectByID_eq_none (db : DB) (i : Int) :
    db.selectByID i = none ↔ ∀ r ∈ db.rows, r.ID ≠ i := by
  unfold DB.selectByID
  rw [List.find?_eq_none]
  constructor
  · intro h r hr e; exact h r hr (by simpa using e)
  · intro h r hr e; exact h r hr (by simpa using e)

theorem selectByID_some (db : DB) (i : Int) (r : Task) (h : db.selectByID i = some r) :
    r ∈ db.rows ∧ r.ID = i := by
  unfold DB.selectByID at h
  exact ⟨List.mem_of_find?_eq_some h, by simpa using List.find?_some h⟩

theorem update_rows_ids (db : DB) (a b c d : String) (i : Int) :
    (db.update a b c d i).rows.map Task.ID = db.rows.map Task.ID := by
  unfold DB.update
  simp only [List.map_map]
  apply List.map_congr_left
  intro t _
  simp only [Function.comp]
  split <;> rfl

theorem delete_rows_ids (db : DB) (i : Int) :
    (db.delete i).rows.map Task.ID = (db.rows.map Task.ID).filter (fun n => !(n == i)) := by
  unfold DB.delete
  simp only [List.filter_map]
  rfl

theorem selectByID_delete (db : DB) (i : Int) : (db.delete i).selectByID i = none := by
  rw [selectByID_eq_none]
  intro r hr
  unfold DB.delete at hr
  simpa using (List.mem_filter.mp hr).2

theorem selectByID_update (db : DB) (a b c d : String) (i : Int)
    (h : ∃ r ∈ db.rows, r.ID = i) :
    (db.update a b c d i).selectByID i =
      some { ID := i, Title := a, Description := b, DueDate := c, Status := d } := by
  obtain ⟨rows, seq⟩ := db
  show List.find? (fun t => t.ID == i) (rows.map (fun t =>
      if t.ID == i then
        { t with Title := a, Description := b, DueDate := c, Status := d }
      else t)) = _
  replace h : ∃ r ∈ rows, r.ID = i := h
  induction rows with
  | nil => obtain ⟨r, hr, _⟩ := h; cases hr
  | cons r rest ih =>
    rw [List.map_cons, List.find?_cons]
    by_cases e : r.ID = i
    · have e1 : (r.ID == i) = true := by simpa using e
      rw [if_pos e1]
      simp [e]
    · have e1 : (r.ID == i) = false := by simpa using e
      have hrest : ∃ r ∈ rest, r.ID = i := by
        obtain ⟨x, hx, hxi⟩ := h
        rcases List.mem_cons.mp hx with h1 | h1
        · subst h1; exact absurd hxi e
        · exact ⟨x, h1, hxi⟩
      rw [e1]
      simp only [Bool.false_eq_true, if_false, e1]
      exact ih hrest

theorem update_rows_of_missing (db : DB) (a b c d : String) (i : Int)
    (h : ∀ r ∈ db.rows, r.ID ≠ i) : db.update a b c d i = db := by
  obtain ⟨rows, seq⟩ := db
  simp only [DB.update, DB.mk.injEq, and_true]
  conv_rhs => rw [← List.map_id rows]
  apply List.map_congr_left
  intro t ht
  have := h t ht
  simp [this]

theorem updateTask_store (f : Faults) (i : Int) (b : Body) (db : DB) :
    (updateTask f i b db).2 = db ∨
    ∃ t : Task, (updateTask f i b db).2 = db.update t.Title t.Description t.DueDate t.Status i := by
  unfold updateTask
  split
  · exact Or.inl rfl
  · split
    · exact Or.inl rfl
    · split
      · exact Or.inl rfl
      · exact Or.inr ⟨_, rfl⟩

theorem id?_toJSON (t : Task) : t.toJSON.id? = some t.ID := by
  simp [JSON.id?, JSON.field, Task.toJSON, List.find?]

theorem createTask_cases (f : Faults) (b : Body) (db : DB) :
    ((createTask f b db).1.status ≠ 200 ∧ (createTask f b db).2 = db) ∨
    ∃ task : Task, bindJSON b = some task ∧
      (createTask f b db).1 = ⟨200, Task.toJSON { task with ID := db.nextRowid }⟩ ∧
      (createTask f b db).2 =
        { rows := db.rows ++ [{ task with ID := db.nextRowid }], seq := db.nextRowid } := by
  unfold createTask
  cases hb : bindJSON b with
  | none => exact Or.inl ⟨by simp [StatusBadRequest], rfl⟩
  | some task =>
    by_cases h1 : f.prepare = true
    · exact Or.inl ⟨by simp [h1, StatusInternalServerError], by simp [h1]⟩
    · by_cases h2 : f.exec = true
      · exact Or.inl ⟨by simp [h1, h2, StatusInternalServerError], by simp [h1, h2]⟩
      · by_cases h3 : db.nextRowid ≤ maxInt64
        · exact Or.inr ⟨task, rfl, by simp [h1, h2, h3, DB.insert, StatusOK],
            by simp [h1, h2, h3, DB.insert]⟩
        · exact Or.inl ⟨by simp [h1, h2, h3, DB.insert, StatusInternalServerError],
            by simp [h1, h2, h3, DB.insert]⟩

theorem selectByID_append_new (rows : List Task) (seq : Int) (t : Task)
    (h : ∀ r ∈ rows, r.ID ≠ t.ID) :
    ({ rows := rows ++ [t], seq := seq } : DB).selectByID t.ID = some t := by
  unfold DB.selectByID
  rw [List.find?_append]
  have : List.find? (fun r => r.ID == t.ID) rows = none := by
    rw [List.find?_eq_none]
    intro r hr e
    exact h r hr (by simpa using e)
  simp [this, List.find?]

theorem updateTask_cases (f : Faults) (i : Int) (b : Body) (db : DB) :
    ((updateTask f i b db).1.status ≠ 200 ∧ (updateTask f i b db).2 = db) ∨
    ∃ task : Task, bindJSON b = some task ∧
      (updateTask f i b db).1 = ⟨200, Task.toJSON task⟩ ∧
      (updateTask f i b db).2 =
        db.update task.Title task.Description task.DueDate task.Status i := by
  unfold updateTask
  cases hb : bindJSON b with
  | none => exact Or.inl ⟨by simp [StatusBadRequest], rfl⟩
  | some task =>
    by_cases h1 : f.prepare = true
    · exact Or.inl ⟨by simp [h1, StatusInternalServerError], by simp [h1]⟩
    · by_cases h2 : f.exec = true
      · exact Or.inl ⟨by simp [h1, h2, StatusInternalServerError], by simp [h1, h2]⟩
      · exact Or.inr ⟨task, rfl, by simp [h1, h2, StatusOK], by simp [h1, h2]⟩

theorem getTask_of_select (g : Faults) (i : Int) (db : DB) (t : Task) (hg : g.query = false)
    (h : db.selectByID i = some t) : (getTask g i db).1 = ⟨200, Task.toJSON t⟩ := by
  simp [getTask, hg, h, StatusOK]

theorem getTask_of_select_none (g : Faults) (i : Int) (db : DB) (hg : g.query = false)
    (h : db.selectByID i = none) :
    (getTask g i db).1 = ⟨404, JSON.obj [("error", JSON.str "Task not found")]⟩ := by
  simp [getTask, hg, h, StatusNotFound, H]

/-! ## Auxiliary facts about request sequences -/

theorem getTask_store (f : Faults) (i : Int) (db : DB) : (getTask f i db).2 = db := by
  unfold getTask
  split
  · rfl
  · split <;> rfl

theorem listTasks_store (f : Faults) (db : DB) : (listTasks f db).2 = db := by
  unfold listTasks
  split
  · rfl
  · split <;> rfl

theorem deleteTask_cases (f : Faults) (i : Int) (db : DB) :
    ((deleteTask f i db).1.status ≠ 200 ∧ (deleteTask f i db).2 = db) ∨
    ((deleteTask f i db).1.status = 200 ∧ (deleteTask f i db).2 = db.delete i) := by
  unfold deleteTask
  by_cases h : f.exec = true
  · exact Or.inl ⟨by simp [h, StatusInternalServerError], by simp [h]⟩
  · exact Or.inr ⟨by simp [h, StatusOK], by simp [h]⟩

theorem tracks_handle (r : Req) (db : DB) (l : List Int) (h : Tracks db l) :
    Tracks (handle r db).2 (liveStep l (r, (handle r db).1)) := by
  obtain ⟨h1, h2, h3⟩ := h
  cases r with
  | create f b =>
    simp only [handle, liveStep]
    rcases createTask_cases f b db with ⟨hne, hdb⟩ | ⟨task, _, hresp, hdb⟩
    · rw [hdb, if_neg (by simpa [StatusOK] using hne)]
      exact ⟨h1, h2, h3⟩
    · rw [hdb, hresp]
      simp only [StatusOK, if_true, id?_toJSON]
      have hfresh : ∀ x ∈ l, x < db.nextRowid := fun x hx =>
        lt_of_le_of_lt (h2 x hx) (seq_lt_nextRowid db)
      refine ⟨by simp [h1], ?_, ?_⟩
      · intro x hx
        rcases List.mem_append.mp hx with hx | hx
        · exact le_of_lt (hfresh x hx)
        · simp only [List.mem_singleton] at hx
          rw [hx]
      · rw [List.nodup_append]
        refine ⟨h3, List.nodup_singleton _, ?_⟩
        intro x hx hx2
        simp only [List.mem_singleton] at hx2
        rw [hx2] at hx
        exact lt_irrefl _ (hfresh _ hx)
  | get f i =>
    simp only [handle, liveStep, getTask_store]
    exact ⟨h1, h2, h3⟩
  | update f i b =>
    simp only [handle, liveStep]
    rcases updateTask_store f i b db with hdb | ⟨t, hdb⟩
    · rw [hdb]; exact ⟨h1, h2, h3⟩
    · rw [hdb]
      exact ⟨by rw [update_rows_ids, h1], h2, h3⟩
  | delete f i =>
    simp only [handle, liveStep]
    rcases deleteTask_cases f i db with ⟨hne, hdb⟩ | ⟨hok, hdb⟩
    · rw [hdb, if_neg (by simpa [StatusOK] using hne)]
      exact ⟨h1, h2, h3⟩
    · rw [hdb, if_pos (by simpa [StatusOK] using hok)]
      refine ⟨by rw [delete_rows_ids, h1], ?_, h3.filter _⟩
      intro x hx
      exact h2 x (List.mem_filter.mp hx).1
  | list f =>
    simp only [handle, liveStep, listTasks_store]
    exact ⟨h1, h2, h3⟩

theorem tracks_run (rs : List Req) : ∀ (db : DB) (l : List Int), Tracks db l →
    Tracks (run db rs).2 (liveFrom l (run db rs).1) := by
  induction rs with
  | nil => intro db l h; exact h
  | cons r rs ih =>
    intro db l h
    simp only [run, liveFrom, List.foldl_cons]
    exact ih _ _ (tracks_handle r db l h)

theorem tracks_empty : Tracks DB.empty [] :=
  ⟨rfl, fun x hx => absurd hx (List.not_mem_nil x), List.nodup_nil⟩

theorem createdIds_cons_subset (e : Req × Response) (tr : List (Req × Response)) (x : Int)
    (h : x ∈ createdIds tr) : x ∈ createdIds (e :: tr) := by
  obtain ⟨r, resp⟩ := e
  cases r with
  | create f b =>
    simp only [createdIds]
    split
    · split
      · exact List.mem_cons_of_mem _ h
      · exact h
    · exact h
  | get f i => simpa only [createdIds] using h
  | update f i b => simpa only [createdIds] using h
  | delete f i => simpa only [createdIds] using h
  | list f => simpa only [createdIds] using h

theorem handle_ids (r : Req) (db : DB) (tr : List (Req × Response)) (x : Int)
    (h : x ∈ (handle r db).2.rows.map Task.ID) :
    x ∈ db.rows.map Task.ID ∨ x ∈ createdIds ((r, (handle r db).1) :: tr) := by
  cases r with
  | create f b =>
    simp only [handle] at h ⊢
    rcases createTask_cases f b db with ⟨_, hdb⟩ | ⟨task, _, hresp, hdb⟩
    · rw [hdb] at h; exact Or.inl h
    · rw [hdb] at h
      rw [hresp]
      simp only [List.map_append, List.map_cons, List.map_nil, List.mem_append,
        List.mem_singleton] at h
      rcases h with h | h
      · exact Or.inl h
      · right
        simp only [createdIds, StatusOK, if_true, id?_toJSON]
        rw [h]
        exact List.mem_cons_self _ _
  | get f i =>
    simp only [handle, getTask_store] at h; exact Or.inl h
  | update f i b =>
    simp only [handle] at h
    rcases updateTask_store f i b db with hdb | ⟨t, hdb⟩
    · rw [hdb] at h; exact Or.inl h
    · rw [hdb, update_rows_ids] at h; exact Or.inl h
  | delete f i =>
    simp only [handle] at h
    rcases deleteTask_cases f i db with ⟨_, hdb⟩ | ⟨_, hdb⟩
    · rw [hdb] at h; exact Or.inl h
    · rw [hdb, delete_rows_ids] at h
      exact Or.inl (List.mem_filter.mp h).1
  | list f =>
    simp only [handle, listTasks_store] at h; exact Or.inl h

theorem run_ids (rs : List Req) : ∀ (db : DB) (x : Int),
    x ∈ (run db rs).2.rows.map Task.ID →
    x ∈ db.rows.map Task.ID ∨ x ∈ createdIds (run db rs).1 := by
  induction rs with
  | nil => intro db x h; exact Or.inl h
  | cons r rs ih =>
    intro db x h
    simp only [run] at h ⊢
    rcases ih _ x h with h1 | h1
    · exact handle_ids r db _ x h1
    · exact Or.inr (createdIds_cons_subset _ _ x h1)

theorem scanRows_some (f : Faults) (hs : f.scan = none) (rows : List Task) :
    ∀ (k : Nat) (l : List Task), scanRows f k rows (some l) = some (some (l ++ rows)) := by
  induction rows with
  | nil => intro k l; simp [scanRows]
  | cons t rest ih =>
    intro k l
    simp only [scanRows, hs, Slice.append]
    rw [if_neg (by simp), ih]
    simp

theorem scanRows_nil (f : Faults) (hs : f.scan = none) (rows : List Task) :
    scanRows f 0 rows none = some (if rows = [] then none else some rows) := by
  cases rows with
  | nil => rfl
  | cons t rest =>
    simp only [scanRows, hs, Slice.append]
    rw [if_neg (by simp), scanRows_some f hs]
    simp

theorem listTasks_clean (f : Faults) (db : DB) (hq : f.query = false) (hs : f.scan = none) :
    (listTasks f db).1 =
      ⟨200, Slice.toJSON (if db.rows = [] then none else some db.rows)⟩ := by
  simp only [listTasks, hq, scanRows_nil f hs, StatusOK]
  rfl

/-- The id in the answer of a successful `updateTask` is the id of the body (0
when the body carries none), whatever the path id and the store. -/
theorem updateTask_answer_id (f : Faults) (i : Int) (p : Payload) (db : DB)
    (hok : (updateTask f i (Body.object p) db).1.status = 200) :
    (updateTask f i (Body.object p) db).1.body.id? = some (p.id.getD 0) := by
  rcases updateTask_cases f i (Body.object p) db with ⟨hne, _⟩ | ⟨task, hb, hresp, _⟩
  · exact absurd hok hne
  · rw [hresp, bindJSON_object p task hb]
    exact id?_toJSON _

/-! ## The claims -/

/-- C1. Create-then-read round trip: for every store and every JSON object body
`p` (whatever `id` it carries, if any), if `createTask` answers 200 with a task
whose id is `n`, then `getTask` on `n` in the resulting store, when the lookup
meets no storage error, answers 200 with the task whose id is `n` and whose
title, description, due_date and status are those of `p` (the empty string for a
field that `p` does not carry). -/
theorem C1_create_then_get (f g : Faults) (p : Payload) (db : DB) (n : Int)
    (hok : (createTask f (Body.object p) db).1.status = 200)
    (hid : (createTask f (Body.object p) db).1.body.id? = some n)
    (hg : g.query = false) :
    (getTask g n (createTask f (Body.object p) db).2).1 =
      ⟨200, Task.toJSON ⟨n, p.title.getD "", p.description.getD "", p.due_date.getD "",
        p.status.getD ""⟩⟩ := by
  rcases createTask_cases f (Body.object p) db with ⟨hne, _⟩ | ⟨task, hb, hresp, hdb⟩
  · exact absurd hok hne
  · have ht := bindJSON_object p task hb
    rw [hresp] at hid
    have hn : db.nextRowid = n := by
      have := id?_toJSON { task with ID := db.nextRowid }
      simp only at hid
      rw [this] at hid
      exact Option.some.inj hid
    rw [hdb]
    apply getTask_of_select g n _ _ hg
    have hnew := selectByID_append_new db.rows db.nextRowid { task with ID := db.nextRowid }
      (fun r hr => ne_of_lt (lt_nextRowid db r hr))
    simp only at hnew
    rw [hn] at hnew
    rw [hn, hnew, ht]

theorem C1_create_then_get_witness :
    (createTask Faults.none
      (Body.object ⟨some 40, some "Buy milk", some "2%", some "2024-01-01", some "pending"⟩)
      DB.empty).1.status = 200 ∧
    (createTask Faults.none
      (Body.object ⟨some 40, some "Buy milk", some "2%", some "2024-01-01", some "pending"⟩)
      DB.empty).1.body.id? = some 1 ∧
    (getTask Faults.none 1 (createTask Faults.none
      (Body.object ⟨some 40, some "Buy milk", some "2%", some "2024-01-01", some "pending"⟩)
      DB.empty).2).1 =
      ⟨200, Task.toJSON ⟨1, "Buy milk", "2%", "2024-01-01", "pending"⟩⟩ :=
  ⟨rfl, rfl,
   C1_create_then_get Faults.none Faults.none
     ⟨some 40, some "Buy milk", some "2%", some "2024-01-01", some "pending"⟩ DB.empty 1
     rfl rfl rfl⟩

/-- C2. The answer of `updateTask` at the input of the spec's scenario: PUT
`/tasks/1` on the store that holds task 1, with the body that carries the title
`Buy milk`, the description `2%`, the due date `2024-01-02`, the status `done`
and no `id` field. The handler answers 200 with the decoded body as it is, so
the `id` of the answer is 0, the zero value of the field, and not the path id 1;
row 1 of the store is updated. -/
theorem C2_update_answer_id :
    (updateTask Faults.none 1
      (Body.object ⟨none, some "Buy milk", some "2%", some "2024-01-02", some "done"⟩)
      { rows := [⟨1, "Buy milk", "2%", "2024-01-01", "pending"⟩], seq := 1 }).1 =
      ⟨200, Task.toJSON ⟨0, "Buy milk", "2%", "2024-01-02", "done"⟩⟩ ∧
    (updateTask Faults.none 1
      (Body.object ⟨none, some "Buy milk", some "2%", some "2024-01-02", some "done"⟩)
      { rows := [⟨1, "Buy milk", "2%", "2024-01-01", "pending"⟩], seq := 1 }).1.body.id? =
      some 0 ∧
    (updateTask Faults.none 1
      (Body.object ⟨none, some "Buy milk", some "2%", some "2024-01-02", some "done"⟩)
      { rows := [⟨1, "Buy milk", "2%", "2024-01-01", "pending"⟩], seq := 1 }).2 =
      { rows := [⟨1, "Buy milk", "2%", "2024-01-02", "done"⟩], seq := 1 } :=
  ⟨rfl, rfl, by decide⟩

/-- C3. Update is a full replace: when the store holds a row with id `i`, the body
is a JSON object `p` and `updateTask` on `(i, p)` answers 200, a `getTask` on `i`
that meets no storage error answers 200 with the task whose id is `i` and whose
four fields are those of `p`, a field that `p` does not carry reading back as
the empty string; and every row with id `i` of the resulting store is that
task, so that no previous field value survives. -/
theorem C3_update_then_get (f g : Faults) (i : Int) (p : Payload) (db : DB)
    (hrow : ∃ r ∈ db.rows, r.ID = i)
    (hok : (updateTask f i (Body.object p) db).1.status = 200)
    (hg : g.query = false) :
    (getTask g i (updateTask f i (Body.object p) db).2).1 =
      ⟨200, Task.toJSON ⟨i, p.title.getD "", p.description.getD "", p.due_date.getD "",
        p.status.getD ""⟩⟩ ∧
    ∀ r ∈ (updateTask f i (Body.object p) db).2.rows, r.ID = i →
      r = ⟨i, p.title.getD "", p.description.getD "", p.due_date.getD "", p.status.getD ""⟩ := by
  rcases updateTask_cases f i (Body.object p) db with ⟨hne, _⟩ | ⟨task, hb, _, hdb⟩
  · exact absurd hok hne
  · have ht := bindJSON_object p task hb
    rw [hdb]
    constructor
    · apply getTask_of_select g i _ _ hg
      rw [selectByID_update db _ _ _ _ i hrow, ht]
    · intro r hr hri
      simp only [DB.update, List.mem_map] at hr
      obtain ⟨r0, _, h0⟩ := hr
      by_cases e : r0.ID = i
      · simp only [beq_iff_eq, e, if_true] at h0
        rw [← h0, ht]
      · simp only [beq_iff_eq, e, if_false] at h0
        rw [h0] at e
        exact absurd hri e

theorem C3_update_then_get_witness :
    (∃ r ∈ ({ rows := [⟨1, "Buy milk", "2%", "2024-01-01", "pending"⟩], seq := 1 } : DB).rows,
      r.ID = 1) ∧
    (getTask Faults.none 1 (updateTask Faults.none 1
      (Body.object ⟨none, some "Buy milk", none, some "2024-01-02", some "done"⟩)
      { rows := [⟨1, "Buy milk", "2%", "2024-01-01", "pending"⟩], seq := 1 }).2).1 =
      ⟨200, Task.toJSON ⟨1, "Buy milk", "", "2024-01-02", "done"⟩⟩ :=
  ⟨by decide,
   (C3_update_then_get Faults.none Faults.none 1
     ⟨none, some "Buy milk", none, some "2024-01-02", some "done"⟩
     { rows := [⟨1, "Buy milk", "2%", "2024-01-01", "pending"⟩], seq := 1 }
     (by decide) rfl rfl).1⟩

/-- C4. Delete-then-read: for every store and every id `i`, whether or not a row
with id `i` exists, a `deleteTask` on `i` that meets no storage error answers
200 with the confirmation message, and a `getTask` on `i` in the resulting
store that meets no storage error answers 404. -/
theorem C4_delete_then_get (f g : Faults) (i : Int) (db : DB)
    (hf : f.exec = false) (hg : g.query = false) :
    (deleteTask f i db).1 =
      ⟨200, JSON.obj [("message", JSON.str "Task deleted successfully")]⟩ ∧
    (getTask g i (deleteTask f i db).2).1 =
      ⟨404, JSON.obj [("error", JSON.str "Task not found")]⟩ := by
  have hd : deleteTask f i db =
      (⟨200, JSON.obj [("message", JSON.str "Task deleted successfully")]⟩, db.delete i) := by
    simp [deleteTask, hf, StatusOK, H]
  rw [hd]
  exact ⟨rfl, getTask_of_select_none g i _ hg (selectByID_delete db i)⟩

theorem C4_delete_then_get_witness :
    (getTask Faults.none 1 (deleteTask Faults.none 1
      { rows := [⟨1, "Buy milk", "2%", "2024-01-02", "done"⟩], seq := 1 }).2).1 =
      ⟨404, JSON.obj [("error", JSON.str "Task not found")]⟩ :=
  (C4_delete_then_get Faults.none Faults.none 1
    { rows := [⟨1, "Buy milk", "2%", "2024-01-02", "done"⟩], seq := 1 } rfl rfl).2

/-- C5. The answers of `getTask`: it answers 404 exactly when the store holds no
row with the requested id and the lookup meets no storage error, and the body is
then the object with the key `error`; when a row with the id exists and the
lookup meets no storage error it answers 200 with a row of that id; a storage
error answers 500; and after any sequence of requests on the empty store, a
lookup (meeting no storage error) of an id that no `createTask` was answered
with answers 404. -/
theorem C5_getTask_status (f : Faults) (i : Int) (db : DB) :
    ((getTask f i db).1.status = 404 ↔ ((∀ r ∈ db.rows, r.ID ≠ i) ∧ f.query = false)) ∧
    ((getTask f i db).1.status = 404 →
      (getTask f i db).1.body = JSON.obj [("error", JSON.str "Task not found")]) ∧
    (f.query = false → (∃ r ∈ db.rows, r.ID = i) →
      ∃ r ∈ db.rows, r.ID = i ∧ (getTask f i db).1 = ⟨200, Task.toJSON r⟩) ∧
    (f.query = true →
      (getTask f i db).1 = ⟨500, JSON.obj [("error", JSON.str "Database error")]⟩) ∧
    (∀ reqs : List Req, f.query = false → i ∉ createdIds (run DB.empty reqs).1 →
      (getTask f i (run DB.empty reqs).2).1.status = 404) := by
  have key : ∀ d : DB, f.query = false → (∀ r ∈ d.rows, r.ID ≠ i) →
      (getTask f i d).1 = ⟨404, JSON.obj [("error", JSON.str "Task not found")]⟩ :=
    fun d hq hm => getTask_of_select_none f i d hq ((selectByID_eq_none d i).mpr hm)
  have found : f.query = false → (∃ r ∈ db.rows, r.ID = i) →
      ∃ r ∈ db.rows, r.ID = i ∧ (getTask f i db).1 = ⟨200, Task.toJSON r⟩ := by
    intro hq hex
    cases hsel : db.selectByID i with
    | none =>
      obtain ⟨r, hr, hri⟩ := hex
      exact absurd hri ((selectByID_eq_none db i).mp hsel r hr)
    | some t =>
      obtain ⟨hmem, hid⟩ := selectByID_some db i t hsel
      exact ⟨t, hmem, hid, getTask_of_select f i db t hq hsel⟩
  have err : f.query = true →
      (getTask f i db).1 = ⟨500, JSON.obj [("error", JSON.str "Database error")]⟩ := by
    intro hq
    simp [getTask, hq, StatusInternalServerError, H]
  have iff404 : (getTask f i db).1.status = 404 ↔
      ((∀ r ∈ db.rows, r.ID ≠ i) ∧ f.query = false) := by
    constructor
    · intro h
      cases hq : f.query with
      | true => rw [err hq] at h; exact absurd h (by decide)
      | false =>
        refine ⟨?_, rfl⟩
        intro r hr hri
        obtain ⟨_, _, _, h2⟩ := found hq ⟨r, hr, hri⟩
        rw [h2] at h
        have h200 : (200 : Nat) = 404 := h
        exact absurd h200 (by decide)
    · rintro ⟨hm, hq⟩
      rw [key db hq hm]
  refine ⟨iff404, ?_, found, err, ?_⟩
  · intro h
    obtain ⟨hm, hq⟩ := iff404.mp h
    rw [key db hq hm]
  · intro reqs hq hni
    rw [key _ hq]
    intro r hr hri
    rcases run_ids reqs DB.empty r.ID (List.mem_map_of_mem _ hr) with h | h
    · exact absurd h (List.not_mem_nil _)
    · rw [hri] at h
      exact hni h

theorem C5_getTask_status_witness :
    (∃ r ∈ ({ rows := [⟨1, "a", "b", "c", "d"⟩, ⟨3, "e", "f", "g", "h"⟩], seq := 3 } : DB).rows,
      r.ID = 3) ∧
    (∃ r ∈ ({ rows := [⟨1, "a", "b", "c", "d"⟩, ⟨3, "e", "f", "g", "h"⟩], seq := 3 } : DB).rows,
      r.ID = 3 ∧
      (getTask Faults.none 3
        { rows := [⟨1, "a", "b", "c", "d"⟩, ⟨3, "e", "f", "g", "h"⟩], seq := 3 }).1 =
        ⟨200, Task.toJSON r⟩) ∧
    (2 : Int) ∉ createdIds (run DB.empty
      [Req.create Faults.none (Body.object ⟨none, some "a", none, none, none⟩)]).1 ∧
    (getTask Faults.none 2 (run DB.empty
      [Req.create Faults.none (Body.object ⟨none, some "a", none, none, none⟩)]).2).1.status =
      404 :=
  ⟨by decide,
   (C5_getTask_status Faults.none 3
      { rows := [⟨1, "a", "b", "c", "d"⟩, ⟨3, "e", "f", "g", "h"⟩], seq := 3 }).2.2.1 rfl
      (by decide),
   by decide,
   (C5_getTask_status Faults.none 2 DB.empty).2.2.2.2
      [Req.create Faults.none (Body.object ⟨none, some "a", none, none, none⟩)] rfl
      (by decide)⟩

/-- C6. The answer of `listTasks` after any sequence of requests on the empty
store, when the listing meets no storage error. The ids of the rows are the ids
of the tasks created and not deleted since, each once and in order of creation.
When at least one such task is left the answer is 200 with the JSON array of
the rows; when none is left (also after no request at all) the answer is 200
with the JSON value `null`, which is no sequence. -/
theorem C6_list_after_run (f : Faults) (reqs : List Req)
    (hq : f.query = false) (hs : f.scan = none) :
    (liveFrom [] (run DB.empty reqs).1).Nodup ∧
    (run DB.empty reqs).2.rows.map Task.ID = liveFrom [] (run DB.empty reqs).1 ∧
    (run DB.empty reqs).2.rows.length = (liveFrom [] (run DB.empty reqs).1).length ∧
    (liveFrom [] (run DB.empty reqs).1 ≠ [] →
      (listTasks f (run DB.empty reqs).2).1 =
        ⟨200, JSON.arr ((run DB.empty reqs).2.rows.map Task.toJSON)⟩) ∧
    (liveFrom [] (run DB.empty reqs).1 = [] →
      (listTasks f (run DB.empty reqs).2).1 = ⟨200, JSON.null⟩) := by
  obtain ⟨h1, _, h3⟩ := tracks_run reqs DB.empty [] tracks_empty
  have hlen : (run DB.empty reqs).2.rows.length = (liveFrom [] (run DB.empty reqs).1).length := by
    rw [← h1, List.length_map]
  refine ⟨h3, h1, hlen, ?_, ?_⟩
  · intro hne
    have hrows : (run DB.empty reqs).2.rows ≠ [] := by
      intro h0
      rw [h0] at h1
      exact hne h1.symm
    rw [listTasks_clean f _ hq hs, if_neg hrows]
    rfl
  · intro he
    have hrows : (run DB.empty reqs).2.rows = [] := by
      rw [he] at hlen
      exact List.length_eq_zero.mp hlen
    rw [listTasks_clean f _ hq hs, if_pos hrows]
    rfl

theorem C6_list_after_run_witness :
    Faults.none.query = false ∧ Faults.none.scan = none ∧
    liveFrom [] (run DB.empty
      [Req.create Faults.none (Body.object ⟨none, some "Buy milk", none, none, none⟩),
       Req.delete Faults.none 1]).1 = [] ∧
    (listTasks Faults.none (run DB.empty
      [Req.create Faults.none (Body.object ⟨none, some "Buy milk", none, none, none⟩),
       Req.delete Faults.none 1]).2).1 = ⟨200, JSON.null⟩ :=
  ⟨rfl, rfl, by decide,
   (C6_list_after_run Faults.none
      [Req.create Faults.none (Body.object ⟨none, some "Buy milk", none, none, none⟩),
       Req.delete Faults.none 1] rfl rfl).2.2.2.2 (by decide)⟩

/-- C7. The answer of `listTasks` on a store without rows, whatever its rowid
counter, when the query meets no storage error: the loop never runs, `tasks`
is still the nil slice, and the answer is 200 with the JSON value `null`, which
is not the empty array. -/
theorem C7_list_empty_is_null (f : Faults) (seq : Int) :
    (listTasks { f with query := false } { rows := [], seq := seq }).1 = ⟨200, JSON.null⟩ ∧
    JSON.null ≠ JSON.arr [] :=
  ⟨rfl, fun h => JSON.noConfusion h⟩

/-- C8. A body that fails to decode is rejected atomically: whatever the store
and the storage errors, `createTask` and `updateTask` answer 400 with the JSON
object whose only key is `error`, and the store is returned as it was (no row
added, changed or removed, and the rowid counter untouched). -/
theorem C8_reject_atomic (f : Faults) (i : Int) (b : Body) (db : DB)
    (h : bindJSON b = none) :
    (createTask f b db).1.status = 400 ∧
    (createTask f b db).1.body = JSON.obj [("error", JSON.str "Invalid request payload")] ∧
    (createTask f b db).2 = db ∧
    (updateTask f i b db).1.status = 400 ∧
    (updateTask f i b db).1.body = JSON.obj [("error", JSON.str "Invalid request payload")] ∧
    (updateTask f i b db).2 = db := by
  simp [createTask, updateTask, h, StatusBadRequest, H]

theorem C8_reject_atomic_witness :
    bindJSON Body.malformed = none ∧
    (createTask Faults.none Body.malformed
        { rows := [⟨1, "Buy milk", "2%", "2024-01-01", "pending"⟩], seq := 1 }).2 =
      { rows := [⟨1, "Buy milk", "2%", "2024-01-01", "pending"⟩], seq := 1 } ∧
    (updateTask Faults.none 1 Body.malformed
        { rows := [⟨1, "Buy milk", "2%", "2024-01-01", "pending"⟩], seq := 1 }).1.status = 400 :=
  ⟨rfl,
   (C8_reject_atomic Faults.none 1 Body.malformed
      { rows := [⟨1, "Buy milk", "2%", "2024-01-01", "pending"⟩], seq := 1 } rfl).2.2.1,
   (C8_reject_atomic Faults.none 1 Body.malformed
      { rows := [⟨1, "Buy milk", "2%", "2024-01-01", "pending"⟩], seq := 1 } rfl).2.2.2.1⟩

/-- C9. Update of a missing id is a silent no-op: when the store holds no row
with id `i`, the body is well-formed and the statement meets no storage error,
`updateTask` answers 200 (as it does on every store, also one where a row
matched), returns the store exactly as it was, and a following `getTask` on `i`
that meets no storage error answers 404. -/
theorem C9_update_missing_noop (f g : Faults) (i : Int) (b : Body) (task : Task) (db : DB)
    (hb : bindJSON b = some task) (hp : f.prepare = false) (he : f.exec = false)
    (hmiss : ∀ r ∈ db.rows, r.ID ≠ i) (hg : g.query = false) :
    (updateTask f i b db).1.status = 200 ∧
    (∀ db2 : DB, (updateTask f i b db2).1.status = 200) ∧
    (updateTask f i b db).2 = db ∧
    (getTask g i (updateTask f i b db).2).1.status = 404 := by
  have hsel : db.selectByID i = none := (selectByID_eq_none db i).mpr hmiss
  simp [updateTask, getTask, hb, hp, he, hg, update_rows_of_missing db _ _ _ _ i hmiss, hsel,
    StatusOK, StatusNotFound]

theorem C9_update_missing_noop_witness :
    bindJSON (Body.object ⟨none, some "x", none, none, none⟩) = some ⟨0, "x", "", "", ""⟩ ∧
    (∀ r ∈ ({ rows := [⟨1, "a", "b", "c", "d"⟩], seq := 1 } : DB).rows, r.ID ≠ 5) ∧
    (updateTask Faults.none 5 (Body.object ⟨none, some "x", none, none, none⟩)
      { rows := [⟨1, "a", "b", "c", "d"⟩], seq := 1 }).2 =
      { rows := [⟨1, "a", "b", "c", "d"⟩], seq := 1 } :=
  ⟨by decide, by decide,
   (C9_update_missing_noop Faults.none Faults.none 5
      (Body.object ⟨none, some "x", none, none, none⟩) ⟨0, "x", "", "", ""⟩
      { rows := [⟨1, "a", "b", "c", "d"⟩], seq := 1 } (by decide) rfl rfl (by decide) rfl).2.2.1⟩

/-- C10. Ids are immutable and `updateTask` touches one row only: for every
store, path id `i`, body `b` (well-formed or not, with or without an `id` of its
own) and storage errors, the store after `updateTask` has the same ids at the
same positions and the same rowid counter, every row whose id is not `i` is the
row it was, and a row whose id is `i` is still a row with id `i`. -/
theorem C10_update_frame (f : Faults) (i : Int) (b : Body) (db : DB) :
    (updateTask f i b db).2.rows.map Task.ID = db.rows.map Task.ID ∧
    (updateTask f i b db).2.seq = db.seq ∧
    (∀ (k : Nat) (t : Task), db.rows[k]? = some t → t.ID ≠ i →
      (updateTask f i b db).2.rows[k]? = some t) ∧
    (∀ (k : Nat) (t : Task), db.rows[k]? = some t → t.ID = i →
      ∃ t1, (updateTask f i b db).2.rows[k]? = some t1 ∧ t1.ID = i) := by
  rcases updateTask_store f i b db with h | ⟨t0, h⟩
  · rw [h]
    exact ⟨rfl, rfl, fun _ _ hk _ => hk, fun _ t hk he => ⟨t, hk, he⟩⟩
  · rw [h]
    refine ⟨update_rows_ids db _ _ _ _ i, rfl, ?_, ?_⟩
    · intro k t hk hne
      simp only [DB.update, List.getElem?_map, hk, Option.map_some', beq_iff_eq, hne,
        if_false]
    · intro k t hk he
      refine ⟨{ t with Title := t0.Title, Description := t0.Description,
                       DueDate := t0.DueDate, Status := t0.Status }, ?_, he⟩
      simp only [DB.update, List.getElem?_map, hk, Option.map_some', beq_iff_eq, he,
        if_true]

theorem C10_update_frame_witness :
    ({ rows := [⟨1, "a", "b", "c", "d"⟩, ⟨2, "e", "f", "g", "h"⟩], seq := 2 } : DB).rows[1]? =
      some ⟨2, "e", "f", "g", "h"⟩ ∧
    (2 : Int) ≠ 1 ∧
    (updateTask Faults.none 1 (Body.object ⟨some 7, some "x", none, none, none⟩)
      { rows := [⟨1, "a", "b", "c", "d"⟩, ⟨2, "e", "f", "g", "h"⟩], seq := 2 }).2.rows[1]? =
      some ⟨2, "e", "f", "g", "h"⟩ :=
  ⟨rfl, by decide,
   (C10_update_frame Faults.none 1 (Body.object ⟨some 7, some "x", none, none, none⟩)
      { rows := [⟨1, "a", "b", "c", "d"⟩, ⟨2, "e", "f", "g", "h"⟩], seq := 2 }).2.2.1 1
      ⟨2, "e", "f", "g", "h"⟩ rfl (by decide)⟩

end TaskAPI
